import Mathlib

/-!
Verification development for the shared-mime-info reader.

The repository has two source files, `src/lib.rs` (the current implementation)
and `src/mime_cache.rs` (an earlier revision kept in-tree, whose
`find_icon_for_mimetype` is a linear scan).  This file gives a shallow
embedding of both: Rust `Vec<u8>` buffers become `List Nat` (each element a
byte value), Rust strings become their UTF-8 byte lists, panicking slice
accesses become a distinguished `panic` outcome, and the `loop` of the binary
search becomes a fuel-indexed recursion (`fuelOut` marks fuel exhaustion and
is proved unreachable for sufficiently large fuel).
-/

set_option maxHeartbeats 1000000

namespace SharedMimeInfo

/-- Embedding of the `Error` enum shared by `src/lib.rs` and
`src/mime_cache.rs`.  `Globs2BadLine` carries the offending line's bytes. -/
inductive Error where
  | MimeCacheNotFound
  | Globs2NotFound
  | Globs2BadLine (line : List Nat)
  | NotANumber
  | MissingHeader
  | MissingGenericIconsList
  | NoIconFound
  | CstrUnterminated
  | InvalidUTF8
deriving DecidableEq

/-- Outcome of a non-panicking fallible computation (Rust `Result`). -/
inductive ERes (α : Type) where
  | ok (val : α)
  | error (e : Error)
deriving DecidableEq

/-- Outcome of a fallible computation: Rust `Result` plus a `panic` outcome
for the unchecked slice accesses (`get_u32_panics`, `.unwrap()`). -/
inductive Res (α : Type) where
  | ok (val : α)
  | err (e : Error)
  | panic
deriving DecidableEq

/-- Outcome of the fuel-indexed binary-search loop: `Res` plus `fuelOut`,
an artifact of the embedding marking fuel exhaustion. -/
inductive RRes (α : Type) where
  | ok (val : α)
  | err (e : Error)
  | panic
  | fuelOut
deriving DecidableEq

/-- Embedding of `u8x2_u16` from `src/mime_cache.rs`
(`((input[0] as u16) << 8) | input[1] as u16`).  `u16::from_be_bytes` used by
`src/lib.rs` computes the same value on byte inputs. -/
def u8x2_u16 (b0 b1 : Nat) : Nat :=
  (b0 <<< 8) ||| b1

/-- Embedding of `u8x4_u32` from `src/mime_cache.rs`
(`(input[0] << 24) | (input[1] << 16) | (input[2] << 8) | input[3]`).
`u32::from_be_bytes` used by `src/lib.rs` computes the same value on bytes. -/
def u8x4_u32 (b0 b1 b2 b3 : Nat) : Nat :=
  (b0 <<< 24) ||| (b1 <<< 16) ||| (b2 <<< 8) ||| b3

/-- Embedding of `get_u32_panics(data, index)`: read 4 big-endian bytes at
`index`; `none` models the Rust panic when `index + 4` exceeds the buffer. -/
def get_u32 (data : List Nat) (index : Nat) : Option Nat :=
  match data[index]?, data[index + 1]?, data[index + 2]?, data[index + 3]? with
  | some b0, some b1, some b2, some b3 => some (u8x4_u32 b0 b1 b2 b3)
  | _, _, _, _ => none

/-- Whether a byte is a UTF-8 continuation byte (`0x80..=0xBF`). -/
def isCont (b : Nat) : Bool :=
  decide (0x80 ≤ b ∧ b ≤ 0xBF)

/-- UTF-8 validity of a byte list, as checked by Rust's `str::from_utf8`
(which `CStr::to_str` calls): the standard table, rejecting overlong forms,
surrogates (`ED A0..`) and values above `U+10FFFF`. -/
def validUtf8 : List Nat → Bool
  | [] => true
  | b0 :: rest =>
    if b0 ≤ 0x7F then validUtf8 rest
    else if b0 < 0xC2 then false
    else if b0 ≤ 0xDF then
      match rest with
      | b1 :: r => isCont b1 && validUtf8 r
      | [] => false
    else if b0 ≤ 0xEF then
      match rest with
      | b1 :: b2 :: r =>
        (if b0 = 0xE0 then decide (0xA0 ≤ b1 ∧ b1 ≤ 0xBF)
         else if b0 = 0xED then decide (0x80 ≤ b1 ∧ b1 ≤ 0x9F)
         else isCont b1) && isCont b2 && validUtf8 r
      | _ => false
    else if b0 ≤ 0xF4 then
      match rest with
      | b1 :: b2 :: b3 :: r =>
        (if b0 = 0xF0 then decide (0x90 ≤ b1 ∧ b1 ≤ 0xBF)
         else if b0 = 0xF4 then decide (0x80 ≤ b1 ∧ b1 ≤ 0x8F)
         else isCont b1) && isCont b2 && isCont b3 && validUtf8 r
      | _ => false
    else false

/-- Embedding of the string-decode sequence used throughout both files:
`data.get(offset..).unwrap()` (panic iff `offset > len`), then
`CStr::from_bytes_until_nul` (scan for a 0 byte, `CstrUnterminated` if none),
then `.to_str()` (`InvalidUTF8` on invalid UTF-8).  Returns the bytes before
the first 0. -/
def read_cstring (data : List Nat) (offset : Nat) : Res (List Nat) :=
  if data.length < offset then .panic
  else
    let s := data.drop offset
    if s.contains 0 then
      let bytes := s.takeWhile (fun b => b != 0)
      if validUtf8 bytes then .ok bytes else .err .InvalidUTF8
    else .err .CstrUnterminated

/-- Read and decode the MIME-type string of generic-icons record `i`:
`get_u32_panics` at `list_start + i * 8` then the C-string decode.  Used by
both the binary search (`src/lib.rs`) and the linear scan
(`src/mime_cache.rs`), whose loop index `i` ranges over the same records. -/
def readRecMime (data : List Nat) (list_start i : Nat) : Res (List Nat) :=
  match get_u32 data (list_start + i * 8) with
  | none => .panic
  | some off => read_cstring data off

/-- Read and decode the icon-name string of generic-icons record `i`
(offset word at `list_start + i * 8 + 4`). -/
def readRecIcon (data : List Nat) (list_start i : Nat) : Res (List Nat) :=
  match get_u32 data (list_start + i * 8 + 4) with
  | none => .panic
  | some off => read_cstring data off

/-- Byte-wise lexicographic comparison: the `Ord` of Rust `String` /
`MimeType` (derived), which compares UTF-8 bytes. -/
def bytesCmp : List Nat → List Nat → Ordering
  | [], [] => .eq
  | [], _ :: _ => .lt
  | _ :: _, [] => .gt
  | a :: xs, b :: ys =>
    if a < b then .lt
    else if b < a then .gt
    else bytesCmp xs ys

/-- Embedding of the `loop { .. }` of `MimeCache::find_icon_for_mimetype` in
`src/lib.rs` (lines 128-163), one fuel unit per iteration.  State is
`(min_index, max_index, index)`; the body probes `index`, compares the
query (`bytesCmp` = `mime_type.cmp(&found_mime_type)`), narrows a bound and
recomputes `index = (max_index + min_index) / 2`, and breaks with
`NoIconFound` when the new `index` equals `max_index` or `min_index`.
On equality it decodes the icon name (only then) and returns it. -/
def binGo (data : List Nat) (list_start : Nat) (query : List Nat) :
    Nat → Nat → Nat → Nat → RRes (List Nat)
  | _, _, _, 0 => .fuelOut
  | minI, maxI, index, fuel + 1 =>
    match readRecMime data list_start index with
    | .panic => .panic
    | .err e => .err e
    | .ok found =>
      match bytesCmp query found with
      | .lt =>
        let maxI' := index
        let index' := (maxI' + minI) / 2
        if index' = maxI' ∨ index' = minI then .err .NoIconFound
        else binGo data list_start query minI maxI' index' fuel
      | .gt =>
        let minI' := index
        let index' := (maxI + minI') / 2
        if index' = maxI ∨ index' = minI' then .err .NoIconFound
        else binGo data list_start query minI' maxI index' fuel
      | .eq =>
        match readRecIcon data list_start index with
        | .panic => .panic
        | .err e => .err e
        | .ok icon => .ok icon

/-- Embedding of the `MimeCacheHeader` struct (eleven fields, all `Nat` for
`u16`/`u32`). -/
structure MimeCacheHeader where
  major_version : Nat
  minor_version : Nat
  alias_list_offset : Nat
  parent_list_offset : Nat
  literal_list_offset : Nat
  reverse_suffix_tree_offset : Nat
  glob_list_offset : Nat
  magic_list_offset : Nat
  namespace_list_offset : Nat
  icons_list_offset : Nat
  generic_icons_list_offset : Nat
deriving DecidableEq

/-- Byte `i` of a buffer; the source only applies `read_header` to exactly
40 bytes, where the default is never used. -/
def byteAt (input : List Nat) (i : Nat) : Nat :=
  input.getD i 0

/-- Embedding of `MimeCacheHeader::read_header` (identical field layout in
both files): big-endian fields at fixed offsets 0,2,4,8,...,36 of the 40-byte
header. -/
def MimeCacheHeader.read_header (input : List Nat) : MimeCacheHeader where
  major_version := u8x2_u16 (byteAt input 0) (byteAt input 1)
  minor_version := u8x2_u16 (byteAt input 2) (byteAt input 3)
  alias_list_offset := u8x4_u32 (byteAt input 4) (byteAt input 5) (byteAt input 6) (byteAt input 7)
  parent_list_offset := u8x4_u32 (byteAt input 8) (byteAt input 9) (byteAt input 10) (byteAt input 11)
  literal_list_offset := u8x4_u32 (byteAt input 12) (byteAt input 13) (byteAt input 14) (byteAt input 15)
  reverse_suffix_tree_offset := u8x4_u32 (byteAt input 16) (byteAt input 17) (byteAt input 18) (byteAt input 19)
  glob_list_offset := u8x4_u32 (byteAt input 20) (byteAt input 21) (byteAt input 22) (byteAt input 23)
  magic_list_offset := u8x4_u32 (byteAt input 24) (byteAt input 25) (byteAt input 26) (byteAt input 27)
  namespace_list_offset := u8x4_u32 (byteAt input 28) (byteAt input 29) (byteAt input 30) (byteAt input 31)
  icons_list_offset := u8x4_u32 (byteAt input 32) (byteAt input 33) (byteAt input 34) (byteAt input 35)
  generic_icons_list_offset := u8x4_u32 (byteAt input 36) (byteAt input 37) (byteAt input 38) (byteAt input 39)

/-- Embedding of the `MimeCache` struct: parsed header plus the raw buffer. -/
structure MimeCache where
  cache_header : MimeCacheHeader
  cache_data : List Nat
deriving DecidableEq

/-- Embedding of `MimeCache::find_icon_for_mimetype` from `src/lib.rs`
(binary search): read the record count at `generic_icons_list_offset`
(panic on out-of-bounds), then run the loop from
`min_index = 0`, `max_index = num_icons`, `index = max_index / 2`.
Fuel `num_icons + 2` is proved sufficient (the loop never exhausts it). -/
def MimeCache.find_icon_for_mimetype (c : MimeCache) (mime_type : List Nat) :
    RRes (List Nat) :=
  let start := c.cache_header.generic_icons_list_offset
  match get_u32 c.cache_data start with
  | none => .panic
  | some num_icons =>
    binGo c.cache_data (start + 4) mime_type 0 num_icons (num_icons / 2)
      (num_icons + 2)

/-- Embedding of the `for` loop of `MimeCache::find_icon_for_mimetype` in
`src/mime_cache.rs` (lines 97-116): scan records in order; on a byte-equal
MIME type decode and return the icon name; `NoIconFound` after the last
record. -/
def linGo (data : List Nat) (list_start : Nat) (mime_type : List Nat) :
    Nat → Nat → Res (List Nat)
  | _, 0 => .err .NoIconFound
  | idx, count + 1 =>
    match readRecMime data list_start idx with
    | .panic => .panic
    | .err e => .err e
    | .ok found =>
      if found = mime_type then
        match readRecIcon data list_start idx with
        | .panic => .panic
        | .err e => .err e
        | .ok icon => .ok icon
      else linGo data list_start mime_type (idx + 1) count

/-- Embedding of `MimeCache::find_icon_for_mimetype` from
`src/mime_cache.rs`: the reference linear scan over the same record list. -/
def findIconLinear (c : MimeCache) (mime_type : List Nat) : Res (List Nat) :=
  let start := c.cache_header.generic_icons_list_offset
  match get_u32 c.cache_data start with
  | none => .panic
  | some num_icons => linGo c.cache_data (start + 4) mime_type 0 num_icons

/-- Embedding of the `GlobEntry` struct: a weight and an owned MIME type. -/
structure GlobEntry where
  weight : Nat
  mime : List Nat
deriving DecidableEq

/-- Embedding of the record loop of `Globber::get_globs_from_cache`
(`src/lib.rs` lines 227-253): for each 12-byte record read the glob-string
offset, decode the glob, read the MIME offset, decode the MIME type, read the
metadata word, and keep `weight = meta & 0xFF`. -/
def globsCacheGo (data : List Nat) (list_start : Nat) :
    Nat → Nat → Res (List (List Nat × GlobEntry))
  | _, 0 => .ok []
  | idx, count + 1 =>
    let i := list_start + idx * 12
    match get_u32 data i with
    | none => .panic
    | some glob_offset =>
      match read_cstring data glob_offset with
      | .panic => .panic
      | .err e => .err e
      | .ok glob =>
        match get_u32 data (i + 4) with
        | none => .panic
        | some mime_offset =>
          match read_cstring data mime_offset with
          | .panic => .panic
          | .err e => .err e
          | .ok mime =>
            match get_u32 data (i + 8) with
            | none => .panic
            | some meta =>
              match globsCacheGo data list_start (idx + 1) count with
              | .panic => .panic
              | .err e => .err e
              | .ok rest => .ok ((glob, ⟨meta &&& 0xFF, mime⟩) :: rest)

/-- Embedding of `Globber::get_globs_from_cache`: read the glob count at
`glob_list_offset`, then walk the records. -/
def Globber.get_globs_from_cache (c : MimeCache) :
    Res (List (List Nat × GlobEntry)) :=
  match get_u32 c.cache_data c.cache_header.glob_list_offset with
  | none => .panic
  | some num_globs =>
    globsCacheGo c.cache_data (c.cache_header.glob_list_offset + 4) 0 num_globs

/-- Split a byte list on a separator byte (every occurrence), keeping empty
segments; `[[]]` for the empty list, as Rust's `split` iterator does. -/
def splitOnByte (sep : Nat) : List Nat → List (List Nat)
  | [] => [[]]
  | c :: rest =>
    match splitOnByte sep rest with
    | [] => [[]]
    | h :: t => if c = sep then [] :: h :: t else (c :: h) :: t

/-- Embedding of Rust `str::lines()`: split on `\n`, drop a final empty
segment (optional trailing newline), strip one trailing `\r` per line. -/
def rustLines (s : List Nat) : List (List Nat) :=
  let parts := splitOnByte 10 s
  let parts := if parts.getLast? = some [] then parts.dropLast else parts
  parts.map (fun l => if l.getLast? = some 13 then l.dropLast else l)

/-- Split at the first occurrence of `sep`: `some (before, after)` or `none`
when `sep` does not occur. -/
def splitFirst (sep : Nat) : List Nat → Option (List Nat × List Nat)
  | [] => none
  | c :: rest =>
    if c = sep then some ([], rest)
    else
      match splitFirst sep rest with
      | none => none
      | some (a, b) => some (c :: a, b)

/-- Embedding of `line.splitn(3, ':')` collected to a `Vec`: one, two or
three parts; the third part keeps any further separators. -/
def splitn3 (sep : Nat) (s : List Nat) : List (List Nat) :=
  match splitFirst sep s with
  | none => [s]
  | some (a, r) =>
    match splitFirst sep r with
    | none => [a, r]
    | some (b, r2) => [a, b, r2]

/-- Value of an ASCII decimal digit byte, `none` for a non-digit. -/
def decDigit (c : Nat) : Option Nat :=
  if 48 ≤ c ∧ c ≤ 57 then some (c - 48) else none

/-- Embedding of Rust `str::parse::<u8>()` on the bytes of the string: an
optional leading `+`, then one or more decimal digits, value at most 255;
anything else (including the empty string and overflow) is `none`. -/
def parseU8 (s : List Nat) : Option Nat :=
  let digits := match s with
    | 43 :: rest => rest
    | _ => s
  if digits = [] then none
  else
    digits.foldl
      (fun acc c =>
        match acc, decDigit c with
        | some a, some d => if a * 10 + d ≤ 255 then some (a * 10 + d) else none
        | _, _ => none)
      (some 0)

/-- Embedding of one iteration of the line loop of `Globber::get_globs2_data`
(`src/lib.rs` lines 259-281): skip `#`-prefixed lines (`.ok none`); split on
the first two colons; `Globs2BadLine` unless exactly three parts;
`NotANumber` if the weight does not parse as `u8`; otherwise the entry
`(glob, { weight, mime })`. -/
def processGlobs2Line (line : List Nat) :
    ERes (Option (List Nat × GlobEntry)) :=
  if line.head? = some 35 then .ok none
  else
    let parts := splitn3 58 line
    if parts.length = 3 then
      match parseU8 (parts.getD 0 []) with
      | none => .error .NotANumber
      | some w => .ok (some (parts.getD 2 [], ⟨w, parts.getD 1 []⟩))
    else .error (.Globs2BadLine line)

/-- Fold of `processGlobs2Line` over the lines, first error wins, entries in
line order. -/
def globs2Go : List (List Nat) → ERes (List (List Nat × GlobEntry))
  | [] => .ok []
  | line :: rest =>
    match processGlobs2Line line with
    | .error e => .error e
    | .ok none => globs2Go rest
    | .ok (some entry) =>
      match globs2Go rest with
      | .error e => .error e
      | .ok l => .ok (entry :: l)

/-- Embedding of `Globber::get_globs2_data`: parse every line of the text
source (the bytes of the UTF-8 `globs2` file). -/
def get_globs2_data (globs : List Nat) :
    ERes (List (List Nat × GlobEntry)) :=
  globs2Go (rustLines globs)

/-- Embedding of `k.strip_prefix("*.")`: `some suffix` when the glob starts
with the two bytes `*.`, else `none`. -/
def stripStarDot (g : List Nat) : Option (List Nat) :=
  match g with
  | a :: b :: k => if a = 42 then if b = 46 then some k else none else none
  | _ => none

/-- The filter applied to each `(glob, entry)` pair in `Globber::new`
(`src/lib.rs` lines 180-187): strip `*.`, then drop the entry when the
remaining suffix contains `?` or `[`; otherwise keep it keyed by the bare
suffix. -/
def keepSimple (kv : List Nat × GlobEntry) : Option (List Nat × GlobEntry) :=
  match stripStarDot kv.1 with
  | some k => if k.contains 63 || k.contains 91 then none else some (k, kv.2)
  | none => none

/-- Model of the `HashMap<String, GlobEntry>`: an association list where
`mapInsert` overwrites (removes any previous binding of the key). -/
abbrev GlobMap := List (List Nat × GlobEntry)

/-- `HashMap::insert`: add the binding, dropping any existing one for the
same key. -/
def mapInsert (m : GlobMap) (k : List Nat) (v : GlobEntry) : GlobMap :=
  (k, v) :: m.filter (fun p => p.1 != k)

/-- `HashMap::get`. -/
def mapLookup (m : GlobMap) (k : List Nat) : Option GlobEntry :=
  (m.find? (fun p => p.1 == k)).map (·.2)

/-- The merge loop of `Globber::new`: fold `keepSimple`-filtered entries into
the map with unconditional overwrite, in stream order. -/
def buildMap (entries : List (List Nat × GlobEntry)) : GlobMap :=
  entries.foldl
    (fun m kv =>
      match keepSimple kv with
      | some (k, v) => mapInsert m k v
      | none => m)
    []

/-- Embedding of `Globber::new` (`src/lib.rs` lines 170-195): extract the
binary-cache glob entries, parse the text source (its raw bytes are a
parameter, standing for the file read), and fold the chained stream —
cache entries first, text entries second — into the map. -/
def Globber.new (c : MimeCache) (globs2_data : List Nat) : Res GlobMap :=
  match Globber.get_globs_from_cache c with
  | .panic => .panic
  | .err e => .err e
  | .ok cache_entries =>
    match get_globs2_data globs2_data with
    | .error e => .err e
    | .ok text_entries => .ok (buildMap (cache_entries ++ text_entries))

/-- Model of Rust `Path::file_name` on a Unix path given as bytes: the last
`/`-separated component after dropping empty and `.` components; `none` when
nothing remains or the last component is `..`. -/
def pathFileName (path : List Nat) : Option (List Nat) :=
  let comps := (splitOnByte 47 path).filter (fun c => c != [] && c != [46])
  match comps.getLast? with
  | none => none
  | some c => if c = [46, 46] then none else some c

/-- Model of Rust `Path::extension`: the part of the file name after its last
`.`, unless there is no `.` or the only `.` is the leading byte (hidden
files). -/
def pathExtension (path : List Nat) : Option (List Nat) :=
  match pathFileName path with
  | none => none
  | some name =>
    if name.contains 46 then
      let extRev := name.reverse.takeWhile (fun b => b != 46)
      if name.length - extRev.length - 1 = 0 then none
      else some extRev.reverse
    else none

/-- Embedding of `Globber::lookup_filename` (`src/lib.rs` lines 197-204):
take the path's extension (if any), require it to be valid UTF-8
(`ext.to_str()?`), look it up in the map and return the entry's MIME type. -/
def Globber.lookup_filename (m : GlobMap) (path : List Nat) : Option (List Nat) :=
  match pathExtension path with
  | none => none
  | some ext =>
    if validUtf8 ext then
      match mapLookup m ext with
      | some entry => some entry.mime
      | none => none
    else none

/-- Embedding of `MimeSearcher::find_mimetype_from_filepath`
(`src/lib.rs` lines 309-311): delegates to `Globber::lookup_filename` of the
searcher's glob map. -/
def MimeSearcher.find_mimetype_from_filepath (m : GlobMap) (path : List Nat) :
    Option (List Nat) :=
  Globber.lookup_filename m path

/-- Big-endian bytes of a `u16`, as produced by Rust `u16::to_be_bytes`. -/
def u16_to_be_bytes (v : Nat) : List Nat :=
  [v / 2 ^ 8 % 256, v % 256]

/-- Big-endian bytes of a `u32`, as produced by Rust `u32::to_be_bytes`. -/
def u32_to_be_bytes (v : Nat) : List Nat :=
  [v / 2 ^ 24 % 256, v / 2 ^ 16 % 256, v / 2 ^ 8 % 256, v % 256]

/-- Encode the eleven header fields big-endian at their fixed offsets,
yielding the 40-byte header buffer that `read_header` consumes. -/
def encodeHeader (h : MimeCacheHeader) : List Nat :=
  u16_to_be_bytes h.major_version ++ u16_to_be_bytes h.minor_version ++
  u32_to_be_bytes h.alias_list_offset ++ u32_to_be_bytes h.parent_list_offset ++
  u32_to_be_bytes h.literal_list_offset ++ u32_to_be_bytes h.reverse_suffix_tree_offset ++
  u32_to_be_bytes h.glob_list_offset ++ u32_to_be_bytes h.magic_list_offset ++
  u32_to_be_bytes h.namespace_list_offset ++ u32_to_be_bytes h.icons_list_offset ++
  u32_to_be_bytes h.generic_icons_list_offset

/-- All eleven header fields are in range for their machine width. -/
def headerWF (h : MimeCacheHeader) : Prop :=
  h.major_version < 2 ^ 16 ∧ h.minor_version < 2 ^ 16 ∧
  h.alias_list_offset < 2 ^ 32 ∧ h.parent_list_offset < 2 ^ 32 ∧
  h.literal_list_offset < 2 ^ 32 ∧ h.reverse_suffix_tree_offset < 2 ^ 32 ∧
  h.glob_list_offset < 2 ^ 32 ∧ h.magic_list_offset < 2 ^ 32 ∧
  h.namespace_list_offset < 2 ^ 32 ∧ h.icons_list_offset < 2 ^ 32 ∧
  h.generic_icons_list_offset < 2 ^ 32


/-! ### Arithmetic facts about the byte decoders -/

/-- Bitwise or is addition when the low `n` bits of `x` are clear and `b`
fits in them. -/
theorem lor_eq_add_of_dvd {n x b : Nat} (hx : 2 ^ n ∣ x) (hb : b < 2 ^ n) :
    x ||| b = x + b := by
  obtain ⟨a, rfl⟩ := hx
  apply Nat.eq_of_testBit_eq
  intro j
  rw [Nat.testBit_lor, Nat.testBit_mul_pow_two_add a hb j, Nat.testBit_mul_pow_two]
  by_cases h : j < n
  · have : ¬ (j ≥ n) := by omega
    simp [h, this]
  · have hj : j ≥ n := by omega
    have hbj : b < 2 ^ j := lt_of_lt_of_le hb (Nat.pow_le_pow_right (by norm_num) hj)
    simp [h, hj, Nat.testBit_lt_two_pow hbj]

/-- The two-byte decoder as plain arithmetic. -/
theorem u8x2_u16_eq (b0 b1 : Nat) (h1 : b1 < 256) :
    u8x2_u16 b0 b1 = b0 * 2 ^ 8 + b1 := by
  have e1 : (b0 * 2 ^ 8) ||| b1 = b0 * 2 ^ 8 + b1 :=
    lor_eq_add_of_dvd (n := 8) ⟨b0, by ring⟩ (by omega)
  unfold u8x2_u16
  rw [Nat.shiftLeft_eq, e1]

/-- The four-byte decoder as plain arithmetic. -/
theorem u8x4_u32_eq (b0 b1 b2 b3 : Nat) (h1 : b1 < 256) (h2 : b2 < 256)
    (h3 : b3 < 256) :
    u8x4_u32 b0 b1 b2 b3 = b0 * 2 ^ 24 + b1 * 2 ^ 16 + b2 * 2 ^ 8 + b3 := by
  have e1 : (b0 * 2 ^ 24) ||| (b1 * 2 ^ 16) = b0 * 2 ^ 24 + b1 * 2 ^ 16 :=
    lor_eq_add_of_dvd (n := 24) ⟨b0, by ring⟩ (by omega)
  have e2 : (b0 * 2 ^ 24 + b1 * 2 ^ 16) ||| (b2 * 2 ^ 8)
      = b0 * 2 ^ 24 + b1 * 2 ^ 16 + b2 * 2 ^ 8 :=
    lor_eq_add_of_dvd (n := 16) ⟨b0 * 2 ^ 8 + b1, by ring⟩ (by omega)
  have e3 : (b0 * 2 ^ 24 + b1 * 2 ^ 16 + b2 * 2 ^ 8) ||| b3
      = b0 * 2 ^ 24 + b1 * 2 ^ 16 + b2 * 2 ^ 8 + b3 :=
    lor_eq_add_of_dvd (n := 8) ⟨b0 * 2 ^ 16 + b1 * 2 ^ 8 + b2, by ring⟩ (by omega)
  unfold u8x4_u32
  rw [Nat.shiftLeft_eq, Nat.shiftLeft_eq, Nat.shiftLeft_eq, e1, e2, e3]

/-- Decoding the big-endian digits of a `u16` recovers it. -/
theorem u16_digits_rt {v : Nat} (h : v < 2 ^ 16) :
    u8x2_u16 (v / 2 ^ 8 % 256) (v % 256) = v := by
  rw [u8x2_u16_eq _ _ (Nat.mod_lt _ (by norm_num))]
  omega

/-- Decoding the big-endian digits of a `u32` recovers it. -/
theorem u32_digits_rt {v : Nat} (h : v < 2 ^ 32) :
    u8x4_u32 (v / 2 ^ 24 % 256) (v / 2 ^ 16 % 256) (v / 2 ^ 8 % 256) (v % 256) = v := by
  rw [u8x4_u32_eq _ _ _ _ (Nat.mod_lt _ (by norm_num)) (Nat.mod_lt _ (by norm_num))
    (Nat.mod_lt _ (by norm_num))]
  omega

/-- Claim C8: encoding the eleven header fields big-endian into the 40-byte
buffer at their fixed offsets and decoding with `read_header` recovers every
field bit-for-bit; equivalently the 2-byte and 4-byte big-endian decoders
`u8x2_u16` / `u8x4_u32` are left inverses of the corresponding encoders for
all in-range values. -/
theorem C8_header_roundtrip :
    (∀ v : Nat, v < 2 ^ 16 →
      u8x2_u16 ((u16_to_be_bytes v).getD 0 0) ((u16_to_be_bytes v).getD 1 0) = v) ∧
    (∀ v : Nat, v < 2 ^ 32 →
      u8x4_u32 ((u32_to_be_bytes v).getD 0 0) ((u32_to_be_bytes v).getD 1 0)
        ((u32_to_be_bytes v).getD 2 0) ((u32_to_be_bytes v).getD 3 0) = v) ∧
    (∀ h : MimeCacheHeader, headerWF h →
      MimeCacheHeader.read_header (encodeHeader h) = h) := by
  refine ⟨?_, ?_, ?_⟩
  · intro v hv
    simpa [u16_to_be_bytes] using u16_digits_rt hv
  · intro v hv
    simpa [u32_to_be_bytes] using u32_digits_rt hv
  · rintro ⟨f1, f2, f3, f4, f5, f6, f7, f8, f9, f10, f11⟩
      ⟨h1, h2, h3, h4, h5, h6, h7, h8, h9, h10, h11⟩
    simp only [encodeHeader, u16_to_be_bytes, u32_to_be_bytes, List.cons_append,
      List.nil_append]
    simp only [MimeCacheHeader.read_header, byteAt, List.getD_cons_zero,
      List.getD_cons_succ, MimeCacheHeader.mk.injEq]
    exact ⟨u16_digits_rt h1, u16_digits_rt h2, u32_digits_rt h3, u32_digits_rt h4,
      u32_digits_rt h5, u32_digits_rt h6, u32_digits_rt h7, u32_digits_rt h8,
      u32_digits_rt h9, u32_digits_rt h10, u32_digits_rt h11⟩

/-- Example header with edge field values for the C8 witness. -/
def hEdge : MimeCacheHeader :=
  ⟨0, 65535, 1, 4294967295, 40, 41, 42, 43, 44, 45, 4294967295⟩

/-- Witness for C8 at the edge values `0`, `1`, `u16::MAX` and `u32::MAX`. -/
theorem C8_header_roundtrip_witness :
    u8x2_u16 ((u16_to_be_bytes 65535).getD 0 0) ((u16_to_be_bytes 65535).getD 1 0) = 65535 ∧
    u8x4_u32 ((u32_to_be_bytes 4294967295).getD 0 0) ((u32_to_be_bytes 4294967295).getD 1 0)
      ((u32_to_be_bytes 4294967295).getD 2 0) ((u32_to_be_bytes 4294967295).getD 3 0)
      = 4294967295 ∧
    MimeCacheHeader.read_header (encodeHeader hEdge) = hEdge :=
  ⟨C8_header_roundtrip.1 65535 (by norm_num),
   C8_header_roundtrip.2.1 4294967295 (by norm_num),
   C8_header_roundtrip.2.2 hEdge (by norm_num [headerWF, hEdge])⟩


/-! ### The binary-search loop: fuel stability and termination -/

/-- Byte-list comparison returning `eq` implies equality of the lists. -/
theorem eq_of_bytesCmp : ∀ xs ys : List Nat, bytesCmp xs ys = .eq → xs = ys := by
  intro xs
  induction xs with
  | nil =>
    intro ys h
    cases ys with
    | nil => rfl
    | cons b ys => simp [bytesCmp] at h
  | cons a xs ih =>
    intro ys h
    cases ys with
    | nil => simp [bytesCmp] at h
    | cons b ys =>
      simp only [bytesCmp] at h
      split_ifs at h with h1 h2
      have hab : a = b := by omega
      subst hab
      rw [ih ys h]

/-- The loop result does not depend on the fuel, once the fuel covers the
bound interval plus one iteration (plus one more from a state whose probe
index sits on a bound, which can keep the interval width unchanged for one
iteration). -/
theorem binGo_stable (data : List Nat) (ls : Nat) (q : List Nat) :
    ∀ fuel₁ fuel₂ minI maxI index,
      minI ≤ index → index ≤ maxI →
      maxI - minI + 1 ≤ fuel₁ →
      (index = minI ∨ index = maxI → maxI - minI + 2 ≤ fuel₁) →
      maxI - minI + 1 ≤ fuel₂ →
      (index = minI ∨ index = maxI → maxI - minI + 2 ≤ fuel₂) →
      binGo data ls q minI maxI index fuel₁ = binGo data ls q minI maxI index fuel₂ := by
  intro fuel₁
  induction fuel₁ with
  | zero => intro fuel₂ minI maxI index h1 h2 h3 h4 h5 h6; omega
  | succ f ih =>
    intro fuel₂ minI maxI index h1 h2 h3 h4 h5 h6
    obtain ⟨g, rfl⟩ : ∃ g, fuel₂ = g + 1 := ⟨fuel₂ - 1, by omega⟩
    cases hr : readRecMime data ls index with
    | panic => simp [binGo, hr]
    | err e => simp [binGo, hr]
    | ok found =>
      cases hc : bytesCmp q found with
      | eq => simp [binGo, hr, hc]
      | lt =>
        simp only [binGo, hr, hc]
        by_cases hb : (index + minI) / 2 = index ∨ (index + minI) / 2 = minI
        · rw [if_pos hb, if_pos hb]
        · rw [if_neg hb, if_neg hb]
          exact ih g minI index ((index + minI) / 2) (by omega) (by omega) (by omega)
            (by omega) (by omega) (by omega)
      | gt =>
        simp only [binGo, hr, hc]
        by_cases hb : (maxI + index) / 2 = maxI ∨ (maxI + index) / 2 = index
        · rw [if_pos hb, if_pos hb]
        · rw [if_neg hb, if_neg hb]
          exact ih g index maxI ((maxI + index) / 2) (by omega) (by omega) (by omega)
            (by omega) (by omega) (by omega)

/-- With the same fuel bound, the loop never exhausts its fuel. -/
theorem binGo_ne_fuelOut (data : List Nat) (ls : Nat) (q : List Nat) :
    ∀ fuel minI maxI index,
      minI ≤ index → index ≤ maxI →
      maxI - minI + 1 ≤ fuel →
      (index = minI ∨ index = maxI → maxI - minI + 2 ≤ fuel) →
      binGo data ls q minI maxI index fuel ≠ .fuelOut := by
  intro fuel
  induction fuel with
  | zero => intro minI maxI index h1 h2 h3 h4; omega
  | succ f ih =>
    intro minI maxI index h1 h2 h3 h4
    cases hr : readRecMime data ls index with
    | panic => simp [binGo, hr]
    | err e => simp [binGo, hr]
    | ok found =>
      cases hc : bytesCmp q found with
      | eq => cases hi : readRecIcon data ls index <;> simp [binGo, hr, hc, hi]
      | lt =>
        simp only [binGo, hr, hc]
        by_cases hb : (index + minI) / 2 = index ∨ (index + minI) / 2 = minI
        · rw [if_pos hb]; simp
        · rw [if_neg hb]
          exact ih minI index ((index + minI) / 2) (by omega) (by omega) (by omega)
            (by omega)
      | gt =>
        simp only [binGo, hr, hc]
        by_cases hb : (maxI + index) / 2 = maxI ∨ (maxI + index) / 2 = index
        · rw [if_pos hb]; simp
        · rw [if_neg hb]
          exact ih index maxI ((maxI + index) / 2) (by omega) (by omega) (by omega)
            (by omega)

/-- Claim C3: for every cache buffer, every count `N` (including 0 and 1) and
every query, the binary-search loop of `find_icon_for_mimetype` terminates
after finitely many iterations: run with any fuel of at least `N + 2`
iterations it returns exactly `find_icon_for_mimetype`'s answer, and that
answer is never the fuel-exhaustion marker. -/
theorem C3_binary_search_terminates (c : MimeCache) (query : List Nat)
    (n fuel : Nat)
    (hn : get_u32 c.cache_data c.cache_header.generic_icons_list_offset = some n)
    (hfuel : n + 2 ≤ fuel) :
    binGo c.cache_data (c.cache_header.generic_icons_list_offset + 4) query
        0 n (n / 2) fuel
      = c.find_icon_for_mimetype query ∧
    c.find_icon_for_mimetype query ≠ .fuelOut := by
  have hfind : c.find_icon_for_mimetype query
      = binGo c.cache_data (c.cache_header.generic_icons_list_offset + 4) query
          0 n (n / 2) (n + 2) := by
    simp only [MimeCache.find_icon_for_mimetype, hn]
  rw [hfind]
  constructor
  · exact binGo_stable _ _ _ fuel (n + 2) 0 n (n / 2) (by omega) (by omega)
      (by omega) (by omega) (by omega) (by omega)
  · exact binGo_ne_fuelOut _ _ _ (n + 2) 0 n (n / 2) (by omega) (by omega)
      (by omega) (by omega)

/-- Example header whose list offsets are all 0, shared by the concrete
buffers below. -/
def exHeader : MimeCacheHeader := ⟨0, 0, 0, 0, 0, 0, 0, 0, 0, 0, 0⟩

/-- Cache whose generic-icons list has count 0 (and nothing after the count
word), for the C3 witness. -/
def c3Cache : MimeCache := ⟨exHeader, [0, 0, 0, 0]⟩

/-- Witness for C3 at a concrete empty-list cache and fuel 5. -/
theorem C3_binary_search_terminates_witness :
    binGo c3Cache.cache_data (c3Cache.cache_header.generic_icons_list_offset + 4)
        [97] 0 0 (0 / 2) 5
      = c3Cache.find_icon_for_mimetype [97] ∧
    c3Cache.find_icon_for_mimetype [97] ≠ .fuelOut :=
  C3_binary_search_terminates c3Cache [97] 0 5 (by decide) (by decide)


/-! ### Concrete sorted cache exposing the search bug, and claims C1, C2, C9 -/

/-- Concrete generic-icons buffer: count 2, record 0 = (`"a"`, `"x"`),
record 1 = (`"b"`, `"y"`); the record list is sorted ascending by MIME
string (`"a" < "b"`). -/
def exIconData : List Nat :=
  [0, 0, 0, 2,
   0, 0, 0, 20, 0, 0, 0, 22,
   0, 0, 0, 24, 0, 0, 0, 26,
   97, 0, 120, 0, 98, 0, 121, 0]

/-- Cache built from `exIconData` with the generic-icons list at offset 0. -/
def exIconCache : MimeCache := ⟨exHeader, exIconData⟩

/-- Claim C1 fails on the code (code bug): on a sorted two-record list the
binary search returns `NoIconFound` for the MIME type at record index 0.
The probe sequence narrows `index` to 0, which equals the lower bound, and
the loop breaks before probing record 0.  The conjuncts show the buffer is a
sorted list containing `"a"` (bytes `[97]`) at record 0 with icon `"x"`
(bytes `[120]`), yet the query `"a"` yields `NoIconFound`. -/
theorem C1_code_bug_first_record_missed :
    get_u32 exIconData 0 = some 2 ∧
    readRecMime exIconData 4 0 = .ok [97] ∧
    readRecIcon exIconData 4 0 = .ok [120] ∧
    readRecMime exIconData 4 1 = .ok [98] ∧
    bytesCmp [97] [98] = .lt ∧
    exIconCache.find_icon_for_mimetype [97] = .err .NoIconFound := by
  decide

/-- Claim C2 fails on the code (code bug): on the same sorted buffer the
reference linear scan of `src/mime_cache.rs` finds record 0's icon while the
binary search of `src/lib.rs` reports `NoIconFound`, so the two
implementations disagree. -/
theorem C2_code_bug_divergence_from_linear_scan :
    bytesCmp [97] [98] = .lt ∧
    findIconLinear exIconCache [97] = .ok [120] ∧
    exIconCache.find_icon_for_mimetype [97] = .err .NoIconFound := by
  decide

/-- The loop's behaviour is fully determined by the MIME-decode outcomes of
the records below `n` and the icon-decode outcomes of records whose MIME
string equals the query: two caches agreeing on those agree on the loop
result, whatever the other icon-name fields contain. -/
theorem binGo_agree (d1 d2 : List Nat) (ls1 ls2 : Nat) (q : List Nat) (n : Nat)
    (hm : ∀ i, i < n → readRecMime d1 ls1 i = readRecMime d2 ls2 i)
    (hi : ∀ i, i < n → readRecMime d1 ls1 i = .ok q →
      readRecIcon d1 ls1 i = readRecIcon d2 ls2 i) :
    ∀ fuel minI maxI index, minI ≤ index → index < maxI → maxI ≤ n →
      binGo d1 ls1 q minI maxI index fuel = binGo d2 ls2 q minI maxI index fuel := by
  intro fuel
  induction fuel with
  | zero => intro minI maxI index h1 h2 h3; rfl
  | succ f ih =>
    intro minI maxI index h1 h2 h3
    have hidx : index < n := lt_of_lt_of_le h2 h3
    have hmime := hm index hidx
    cases hr : readRecMime d1 ls1 index with
    | panic =>
      have hr2 : readRecMime d2 ls2 index = .panic := by rw [← hmime, hr]
      simp [binGo, hr, hr2]
    | err e =>
      have hr2 : readRecMime d2 ls2 index = .err e := by rw [← hmime, hr]
      simp [binGo, hr, hr2]
    | ok found =>
      have hr2 : readRecMime d2 ls2 index = .ok found := by rw [← hmime, hr]
      cases hc : bytesCmp q found with
      | eq =>
        have hok : readRecMime d1 ls1 index = .ok q := by
          rw [hr, eq_of_bytesCmp q found hc]
        have hicon := hi index hidx hok
        simp [binGo, hr, hr2, hc, hicon]
      | lt =>
        simp only [binGo, hr, hr2, hc]
        by_cases hb : (index + minI) / 2 = index ∨ (index + minI) / 2 = minI
        · rw [if_pos hb, if_pos hb]
        · rw [if_neg hb, if_neg hb]
          exact ih minI index ((index + minI) / 2) (by omega) (by omega) (by omega)
      | gt =>
        simp only [binGo, hr, hr2, hc]
        by_cases hb : (maxI + index) / 2 = maxI ∨ (maxI + index) / 2 = index
        · rw [if_pos hb, if_pos hb]
        · rw [if_neg hb, if_neg hb]
          exact ih index maxI ((maxI + index) / 2) (by omega) (by omega) (by omega)

/-- The linear scan is likewise determined by the MIME-decode outcomes and
the icon decodes of query-matching records. -/
theorem linGo_agree (d1 d2 : List Nat) (ls1 ls2 : Nat) (q : List Nat) (n : Nat)
    (hm : ∀ i, i < n → readRecMime d1 ls1 i = readRecMime d2 ls2 i)
    (hi : ∀ i, i < n → readRecMime d1 ls1 i = .ok q →
      readRecIcon d1 ls1 i = readRecIcon d2 ls2 i) :
    ∀ count idx, idx + count ≤ n →
      linGo d1 ls1 q idx count = linGo d2 ls2 q idx count := by
  intro count
  induction count with
  | zero => intro idx h; rfl
  | succ cnt ih =>
    intro idx h
    have hidx : idx < n := by omega
    have hmime := hm idx hidx
    cases hr : readRecMime d1 ls1 idx with
    | panic =>
      have hr2 : readRecMime d2 ls2 idx = .panic := by rw [← hmime, hr]
      simp [linGo, hr, hr2]
    | err e =>
      have hr2 : readRecMime d2 ls2 idx = .err e := by rw [← hmime, hr]
      simp [linGo, hr, hr2]
    | ok found =>
      have hr2 : readRecMime d2 ls2 idx = .ok found := by rw [← hmime, hr]
      by_cases hfq : found = q
      · subst hfq
        have hicon := hi idx hidx hr
        simp [linGo, hr, hr2, hicon]
      · simp only [linGo, hr, hr2, if_neg hfq]
        exact ih (idx + 1) (by omega)

/-- Claim C9: during the generic-icon search a record's icon-name field is
decoded only after its MIME type compared equal to the query.  Formally: the
answers of both implementations are fully determined by the two caches'
record counts, MIME-decode outcomes, and icon-decode outcomes of records
whose MIME string equals the query; nothing is assumed about the icon-name
spans of non-matching records — in particular an unterminated or non-UTF-8
icon span there cannot surface a `CstrUnterminated` or `InvalidUTF8` error.
(The binary search needs `1 ≤ n`: with count 0 it erroneously probes a
nonexistent record 0, see C1.) -/
theorem C9_icon_decoded_only_after_match (c1 c2 : MimeCache) (q : List Nat)
    (n : Nat)
    (h1 : get_u32 c1.cache_data c1.cache_header.generic_icons_list_offset = some n)
    (h2 : get_u32 c2.cache_data c2.cache_header.generic_icons_list_offset = some n)
    (hm : ∀ i, i < n →
      readRecMime c1.cache_data (c1.cache_header.generic_icons_list_offset + 4) i
        = readRecMime c2.cache_data (c2.cache_header.generic_icons_list_offset + 4) i)
    (hi : ∀ i, i < n →
      readRecMime c1.cache_data (c1.cache_header.generic_icons_list_offset + 4) i = .ok q →
      readRecIcon c1.cache_data (c1.cache_header.generic_icons_list_offset + 4) i
        = readRecIcon c2.cache_data (c2.cache_header.generic_icons_list_offset + 4) i) :
    (1 ≤ n → c1.find_icon_for_mimetype q = c2.find_icon_for_mimetype q) ∧
    findIconLinear c1 q = findIconLinear c2 q := by
  constructor
  · intro hn
    simp only [MimeCache.find_icon_for_mimetype, h1, h2]
    exact binGo_agree _ _ _ _ _ _ hm hi _ 0 n (n / 2) (Nat.zero_le _) (by omega) le_rfl
  · simp only [findIconLinear, h1, h2]
    exact linGo_agree _ _ _ _ _ _ hm hi n 0 (by omega)

/-- Variant of `exIconData` in which record 1's icon-name field points at an
unterminated byte span (offset 27 reaches the last byte 121 with no 0
following); both records' MIME strings decode as in `exIconCache`. -/
def w9IconData : List Nat :=
  [0, 0, 0, 2,
   0, 0, 0, 20, 0, 0, 0, 22,
   0, 0, 0, 24, 0, 0, 0, 27,
   97, 0, 120, 0, 98, 0, 0, 121]

/-- Cache built from `w9IconData`. -/
def w9IconCache : MimeCache := ⟨exHeader, w9IconData⟩

/-- Witness for C9: the cache with a broken icon span on (non-matching)
record 1 and the clean cache answer the never-matching query `"zz"`
identically, under both implementations. -/
theorem C9_icon_decoded_only_after_match_witness :
    (w9IconCache.find_icon_for_mimetype [122, 122]
      = exIconCache.find_icon_for_mimetype [122, 122]) ∧
    findIconLinear w9IconCache [122, 122] = findIconLinear exIconCache [122, 122] :=
  ⟨(C9_icon_decoded_only_after_match w9IconCache exIconCache [122, 122] 2
      (by decide) (by decide) (by decide) (by decide)).1 (by decide),
   (C9_icon_decoded_only_after_match w9IconCache exIconCache [122, 122] 2
      (by decide) (by decide) (by decide) (by decide)).2⟩


/-! ### The glob map: merge semantics (claims C4, C5, C10) -/

/-- The entry for key `k` that was processed last in stream order (the one a
fold with overwriting inserts leaves in the map). -/
def lastOf (l : List (List Nat × GlobEntry)) (k : List Nat) : Option GlobEntry :=
  (l.reverse.find? (fun p => p.1 == k)).map (·.2)

/-- Removing the bindings of key `k` does not change a lookup of a different
key. -/
theorem find?_filter_ne (m : GlobMap) (k k' : List Nat) (h : k' ≠ k) :
    (m.filter (fun p => p.1 != k)).find? (fun p => p.1 == k')
      = m.find? (fun p => p.1 == k') := by
  induction m with
  | nil => rfl
  | cons a m ih =>
    by_cases ha : a.1 = k
    · have h1 : (a.1 != k) = false := by simp [ha]
      have h2 : (a.1 == k') = false := by
        simp only [ha, beq_eq_false_iff_ne]
        exact Ne.symm h
      simp [List.filter_cons, List.find?_cons, h1, h2, ih]
    · have h1 : (a.1 != k) = true := by simp [ha]
      by_cases hk' : a.1 = k'
      · have h2 : (a.1 == k') = true := by simp [hk']
        simp [List.filter_cons, List.find?_cons, h1, h2]
      · have h2 : (a.1 == k') = false := by simp [hk']
        simp [List.filter_cons, List.find?_cons, h1, h2, ih]

/-- `HashMap::insert` semantics through `get`: the inserted key maps to the
new entry and other keys are unchanged. -/
theorem mapLookup_insert (m : GlobMap) (k k' : List Nat) (v : GlobEntry) :
    mapLookup (mapInsert m k v) k' = if k' = k then some v else mapLookup m k' := by
  unfold mapLookup mapInsert
  by_cases h : k' = k
  · subst h
    simp [List.find?_cons]
  · rw [if_neg h]
    have h2 : (k == k') = false := by
      simp only [beq_eq_false_iff_ne]
      exact Ne.symm h
    simp [List.find?_cons, h2, find?_filter_ne m k k' h]

/-- Unfolding `lastOf` over a newly prepended (earlier-in-stream) entry. -/
theorem lastOf_cons (e : List Nat × GlobEntry) (l : List (List Nat × GlobEntry))
    (k : List Nat) :
    lastOf (e :: l) k
      = match lastOf l k with
        | some v => some v
        | none => if e.1 = k then some e.2 else none := by
  unfold lastOf
  rw [List.reverse_cons, List.find?_append]
  cases hf : l.reverse.find? (fun p => p.1 == k) with
  | some p => simp [hf, Option.or]
  | none =>
    by_cases he : e.1 = k
    · simp [hf, Option.or, List.find?_cons, he]
    · have h2 : (e.1 == k) = false := by simp [he]
      simp [hf, Option.or, List.find?_cons, h2, he]

/-- Lookup after the merge fold: the last kept entry for the key wins, and
an untouched key falls back to the accumulator. -/
theorem mapLookup_buildMap_aux (es : List (List Nat × GlobEntry)) :
    ∀ (m : GlobMap) (k : List Nat),
      mapLookup
        (es.foldl
          (fun m kv =>
            match keepSimple kv with
            | some (k, v) => mapInsert m k v
            | none => m)
          m) k
      = match lastOf (es.filterMap keepSimple) k with
        | some v => some v
        | none => mapLookup m k := by
  induction es with
  | nil => intro m k; simp [lastOf]
  | cons kv es ih =>
    intro m k
    cases hk : keepSimple kv with
    | none =>
      simp only [List.foldl_cons, List.filterMap_cons, hk]
      exact ih m k
    | some p =>
      obtain ⟨k0, v0⟩ := p
      simp only [List.foldl_cons, List.filterMap_cons, hk]
      rw [ih (mapInsert m k0 v0) k, lastOf_cons]
      cases hl : lastOf (es.filterMap keepSimple) k with
      | some v => rfl
      | none =>
        simp only [mapLookup_insert]
        by_cases hk0 : k0 = k
        · subst hk0
          simp
        · have hk0' : ¬(k = k0) := fun hh => hk0 hh.symm
          simp [hk0, hk0']

/-- Lookup in the built glob map is exactly the last kept entry of the
stream for that key. -/
theorem mapLookup_buildMap (es : List (List Nat × GlobEntry)) (k : List Nat) :
    mapLookup (buildMap es) k = lastOf (es.filterMap keepSimple) k := by
  unfold buildMap
  rw [mapLookup_buildMap_aux es [] k]
  cases hl : lastOf (es.filterMap keepSimple) k <;> simp [mapLookup]

/-- `lastOf` over a concatenation prefers the second (later) list. -/
theorem lastOf_append (l1 l2 : List (List Nat × GlobEntry)) (k : List Nat) :
    lastOf (l1 ++ l2) k
      = match lastOf l2 k with
        | some v => some v
        | none => lastOf l1 k := by
  unfold lastOf
  rw [List.reverse_append, List.find?_append]
  cases hf : l2.reverse.find? (fun p => p.1 == k) <;> simp [hf, Option.or]

/-- Claim C4: the glob index inserts binary-cache entries first and
text-file entries second with unconditional overwrite.  For every extension
kept from the text source the final map holds the text source's last entry
for it, regardless of any cache entry or weight; for an extension absent
from the (filtered) text source the final map holds the cache source's last
entry. -/
theorem C4_text_overrides_cache (c : MimeCache) (t : List Nat)
    (ce te : List (List Nat × GlobEntry))
    (hce : Globber.get_globs_from_cache c = .ok ce)
    (hte : get_globs2_data t = .ok te) :
    Globber.new c t = .ok (buildMap (ce ++ te)) ∧
    ∀ ext : List Nat,
      (∀ v, lastOf (te.filterMap keepSimple) ext = some v →
        mapLookup (buildMap (ce ++ te)) ext = some v) ∧
      (lastOf (te.filterMap keepSimple) ext = none →
        mapLookup (buildMap (ce ++ te)) ext = lastOf (ce.filterMap keepSimple) ext) := by
  refine ⟨by simp [Globber.new, hce, hte], ?_⟩
  intro ext
  rw [mapLookup_buildMap, List.filterMap_append, lastOf_append]
  constructor
  · intro v hv
    rw [hv]
  · intro hv
    rw [hv]

/-- Cache whose glob list holds one record `*.x` → `m` with weight 5, for
the C4 and C5 witnesses. -/
def c4Cache : MimeCache :=
  ⟨exHeader, [0, 0, 0, 1, 0, 0, 0, 16, 0, 0, 0, 20, 0, 0, 0, 5, 42, 46, 120, 0, 109, 0]⟩

/-- Text source `1:a:*.x` for the C4 and C5 witnesses. -/
def c4Text : List Nat := [49, 58, 97, 58, 42, 46, 120]

/-- Witness for C4: with `*.x` in both sources, the lookup of `x` returns
the text entry (weight 1, MIME `a`), not the cache entry. -/
theorem C4_text_overrides_cache_witness :
    Globber.new c4Cache c4Text
      = .ok (buildMap ([([42, 46, 120], ⟨5, [109]⟩)] ++ [([42, 46, 120], ⟨1, [97]⟩)])) ∧
    mapLookup (buildMap ([([42, 46, 120], ⟨5, [109]⟩)] ++ [([42, 46, 120], ⟨1, [97]⟩)]))
        [120]
      = some ⟨1, [97]⟩ := by
  have h := C4_text_overrides_cache c4Cache c4Text [([42, 46, 120], ⟨5, [109]⟩)]
    [([42, 46, 120], ⟨1, [97]⟩)] (by decide) (by decide)
  exact ⟨h.1, (h.2 [120]).1 ⟨1, [97]⟩ (by decide)⟩


/-- Inversion for the `*.`-strip: a successful strip pins the glob's shape. -/
theorem stripStarDot_eq_some {g k : List Nat} (h : stripStarDot g = some k) :
    g = 42 :: 46 :: k := by
  cases g with
  | nil => simp [stripStarDot] at h
  | cons a g' =>
    cases g' with
    | nil => simp [stripStarDot] at h
    | cons b g'' =>
      simp only [stripStarDot] at h
      split_ifs at h with h1 h2
      obtain rfl := Option.some.inj h
      rw [h1, h2]

/-- Inversion for `keepSimple`: a kept pair comes from a glob of shape
`*.` ++ key whose key avoids `?` and `[`, and keeps the entry unchanged. -/
theorem keepSimple_key {kv p : List Nat × GlobEntry}
    (h : keepSimple kv = some p) :
    kv.1 = 42 :: 46 :: p.1 ∧ p.2 = kv.2 ∧
      p.1.contains 63 = false ∧ p.1.contains 91 = false := by
  unfold keepSimple at h
  cases hs : stripStarDot kv.1 with
  | none => rw [hs] at h; exact absurd h (by simp)
  | some k0 =>
    simp only [hs] at h
    by_cases hc : (k0.contains 63 || k0.contains 91) = true
    · rw [if_pos hc] at h
      exact absurd h (by simp)
    · rw [if_neg hc] at h
      obtain rfl := Option.some.inj h
      simp only [Bool.or_eq_true, not_or, Bool.not_eq_true] at hc
      exact ⟨stripStarDot_eq_some hs, rfl, hc.1, hc.2⟩

/-- A glob of shape `*.` ++ key with a clean key is kept as-is. -/
theorem keepSimple_of (k : List Nat) (v : GlobEntry)
    (h63 : k.contains 63 = false) (h91 : k.contains 91 = false) :
    keepSimple (42 :: 46 :: k, v) = some (k, v) := by
  have hs : stripStarDot (42 :: 46 :: k) = some k := by simp [stripStarDot]
  unfold keepSimple
  simp only [hs, h63, h91]
  simp

/-- Claim C5: the glob index keeps exactly the glob strings of shape `*.`
followed by a suffix containing neither `?` (63) nor `[` (91), keyed by the
bare suffix; every other glob from either source is dropped, producing
neither an entry nor an error (the build step is total: `Globber.new`
succeeds whenever the two source extractions succeed). -/
theorem C5_simple_suffix_filter (c : MimeCache) (t : List Nat)
    (ce te : List (List Nat × GlobEntry))
    (hce : Globber.get_globs_from_cache c = .ok ce)
    (hte : get_globs2_data t = .ok te) :
    Globber.new c t = .ok (buildMap (ce ++ te)) ∧
    ∀ ext : List Nat,
      (mapLookup (buildMap (ce ++ te)) ext).isSome ↔
        ((∃ v, (42 :: 46 :: ext, v) ∈ ce ++ te) ∧
          ext.contains 63 = false ∧ ext.contains 91 = false) := by
  refine ⟨by simp [Globber.new, hce, hte], ?_⟩
  intro ext
  rw [mapLookup_buildMap]
  unfold lastOf
  rw [Option.isSome_map']
  constructor
  · intro h
    obtain ⟨x, hx, hpx⟩ := List.find?_isSome.mp h
    rw [List.mem_reverse] at hx
    obtain ⟨kv, hkv, hks⟩ := List.mem_filterMap.mp hx
    have hkey : x.1 = ext := by simpa using hpx
    obtain ⟨hg, hw, h63, h91⟩ := keepSimple_key hks
    rw [hkey] at hg h63 h91
    refine ⟨⟨kv.2, ?_⟩, h63, h91⟩
    have hkv2 : kv = (42 :: 46 :: ext, kv.2) := by
      obtain ⟨g, w⟩ := kv
      simp only at hg
      rw [hg]
    rw [← hkv2]
    exact hkv
  · rintro ⟨⟨v, hv⟩, h63, h91⟩
    apply List.find?_isSome.mpr
    refine ⟨(ext, v), ?_, by simp⟩
    rw [List.mem_reverse]
    exact List.mem_filterMap.mpr ⟨_, hv, keepSimple_of ext v h63 h91⟩

/-- Witness for C5: the extension `x` (kept from the glob `*.x`) is present
in the effective index built from the C4 witness sources. -/
theorem C5_simple_suffix_filter_witness :
    (mapLookup (buildMap ([([42, 46, 120], ⟨5, [109]⟩)] ++ [([42, 46, 120], ⟨1, [97]⟩)]))
      [120]).isSome :=
  ((C5_simple_suffix_filter c4Cache c4Text [([42, 46, 120], ⟨5, [109]⟩)]
      [([42, 46, 120], ⟨1, [97]⟩)] (by decide) (by decide)).2 [120]).mpr
    ⟨⟨⟨5, [109]⟩, by decide⟩, by decide, by decide⟩


/-! ### Weight noninterference (claim C10) -/

/-- Two parsed entries agreeing on glob string and MIME type; the weights
may differ. -/
def entryShapeEq (a b : List Nat × GlobEntry) : Prop :=
  a.1 = b.1 ∧ a.2.mime = b.2.mime

/-- Pointwise `entryShapeEq` between two entry lists (or two maps). -/
def sameShape (l1 l2 : List (List Nat × GlobEntry)) : Prop :=
  List.Forall₂ entryShapeEq l1 l2

/-- Dropping one key's bindings preserves the shape relation. -/
theorem sameShape_filter {m1 m2 : GlobMap} (h : sameShape m1 m2) (k : List Nat) :
    sameShape (m1.filter (fun p => p.1 != k)) (m2.filter (fun p => p.1 != k)) := by
  induction h with
  | nil => exact List.Forall₂.nil
  | @cons a b l1 l2 hab htl ih =>
    rw [List.filter_cons, List.filter_cons, hab.1]
    cases hb : (b.1 != k) with
    | true => exact List.Forall₂.cons hab ih
    | false => exact ih

/-- Inserting shape-equal entries under the same key preserves the shape
relation. -/
theorem sameShape_insert {m1 m2 : GlobMap} (h : sameShape m1 m2) (k : List Nat)
    (v1 v2 : GlobEntry) (hv : v1.mime = v2.mime) :
    sameShape (mapInsert m1 k v1) (mapInsert m2 k v2) :=
  List.Forall₂.cons ⟨rfl, hv⟩ (sameShape_filter h k)

/-- The merge fold preserves the shape relation. -/
theorem sameShape_buildAux {es1 es2 : List (List Nat × GlobEntry)}
    (hes : sameShape es1 es2) :
    ∀ {m1 m2 : GlobMap}, sameShape m1 m2 →
      sameShape
        (es1.foldl
          (fun m kv =>
            match keepSimple kv with
            | some (k, v) => mapInsert m k v
            | none => m)
          m1)
        (es2.foldl
          (fun m kv =>
            match keepSimple kv with
            | some (k, v) => mapInsert m k v
            | none => m)
          m2) := by
  induction hes with
  | nil => intro m1 m2 hm; exact hm
  | @cons a b l1 l2 hab htl ih =>
    intro m1 m2 hm
    rw [List.foldl_cons, List.foldl_cons]
    apply ih
    have hkey : a.1 = b.1 := hab.1
    cases hk : keepSimple a with
    | none =>
      have hk2 : keepSimple b = none := by
        unfold keepSimple at hk ⊢
        rw [← hkey]
        cases hs : stripStarDot a.1 with
        | none => simp
        | some k0 =>
          simp only [hs] at hk ⊢
          by_cases hcond : (k0.contains 63 || k0.contains 91) = true
          · rw [if_pos hcond]
          · rw [if_neg hcond] at hk
            exact absurd hk (by simp)
      simp only [hk, hk2]
      exact hm
    | some p =>
      obtain ⟨k0, v0⟩ := p
      obtain ⟨hg, hv0, h63, h91⟩ := keepSimple_key hk
      have hgb : b.1 = 42 :: 46 :: k0 := by rw [← hkey]; exact hg
      have hk2 : keepSimple b = some (k0, b.2) := by
        have hb_eta : b = (b.1, b.2) := rfl
        rw [hb_eta, hgb]
        exact keepSimple_of k0 b.2 h63 h91
      simp only [hk, hk2]
      exact sameShape_insert hm k0 v0 b.2 (by
        have hv0' : v0 = a.2 := hv0
        rw [hv0']
        exact hab.2)

/-- Shape-equal maps answer every lookup with the same MIME type. -/
theorem sameShape_lookup {m1 m2 : GlobMap} (h : sameShape m1 m2) (k : List Nat) :
    (mapLookup m1 k).map GlobEntry.mime = (mapLookup m2 k).map GlobEntry.mime := by
  induction h with
  | nil => rfl
  | @cons a b l1 l2 hab htl ih =>
    have hkey : a.1 = b.1 := hab.1
    simp only [mapLookup, List.find?_cons, ← hkey] at ih ⊢
    cases hc : (a.1 == k) with
    | true => simp [hab.2]
    | false => exact ih

/-- Claim C10 (amended): when the two sources decode to pairwise shape-equal
entry lists — same glob strings and same MIME types, arbitrary weights, as
is the case for two cache buffers differing only in weight-and-flags words
none of whose string spans overlap such a word, and for text sources
differing only in still-parsing weight digits — `find_mimetype_from_filepath`
answers every path identically.  Neither the stored weight nor the
case-sensitivity flag (which is never even extracted) influences a lookup. -/
theorem C10_weight_noninterference (ce1 ce2 te1 te2 : List (List Nat × GlobEntry))
    (hc : sameShape ce1 ce2) (ht : sameShape te1 te2) (path : List Nat) :
    MimeSearcher.find_mimetype_from_filepath (buildMap (ce1 ++ te1)) path
      = MimeSearcher.find_mimetype_from_filepath (buildMap (ce2 ++ te2)) path := by
  have happ : sameShape (ce1 ++ te1) (ce2 ++ te2) := List.rel_append hc ht
  have hbm : sameShape (buildMap (ce1 ++ te1)) (buildMap (ce2 ++ te2)) :=
    sameShape_buildAux happ List.Forall₂.nil
  have hl := sameShape_lookup hbm
  cases hpe : pathExtension path with
  | none =>
    simp [MimeSearcher.find_mimetype_from_filepath, Globber.lookup_filename, hpe]
  | some ext =>
    simp only [MimeSearcher.find_mimetype_from_filepath, Globber.lookup_filename, hpe]
    by_cases hu : validUtf8 ext = true
    · rw [if_pos hu, if_pos hu]
      have hle := hl ext
      cases h1 : mapLookup (buildMap (ce1 ++ te1)) ext with
      | none =>
        cases h2 : mapLookup (buildMap (ce2 ++ te2)) ext with
        | none => rfl
        | some e2 => rw [h1, h2] at hle; exact absurd hle (by simp)
      | some e1 =>
        cases h2 : mapLookup (buildMap (ce2 ++ te2)) ext with
        | none => rw [h1, h2] at hle; exact absurd hle (by simp)
        | some e2 =>
          rw [h1, h2] at hle
          simp only [Option.map_some', Option.some.injEq] at hle
          simp [hle]
    · rw [if_neg hu, if_neg hu]

/-- Buffer with one glob record whose glob-string offset (12) points into
its own weight-and-flags word (bytes 12-15): the glob decodes as `*.a`. -/
def cxD1 : List Nat := [0, 0, 0, 1, 0, 0, 0, 12, 0, 0, 0, 16, 42, 46, 97, 0, 109, 0]

/-- Same buffer with one byte of the weight-and-flags word changed (byte 14,
97 → 98): the glob now decodes as `*.b`. -/
def cxD2 : List Nat := [0, 0, 0, 1, 0, 0, 0, 12, 0, 0, 0, 16, 42, 46, 98, 0, 109, 0]

/-- Counterexample to C10 as stated: the two buffers are identical outside
the single record's 32-bit weight-and-flags word (bytes 12-15), both parse
(with equal weights, 0), yet the lookup of `f.a` answers differently,
because the record's glob-string offset points into that word. -/
theorem C10_counterexample_aliased_weight_word :
    cxD1.take 12 = cxD2.take 12 ∧ cxD1.drop 16 = cxD2.drop 16 ∧
    cxD1.length = cxD2.length ∧
    Globber.new ⟨exHeader, cxD1⟩ [] = .ok [([97], ⟨0, [109]⟩)] ∧
    Globber.new ⟨exHeader, cxD2⟩ [] = .ok [([98], ⟨0, [109]⟩)] ∧
    MimeSearcher.find_mimetype_from_filepath [([97], ⟨0, [109]⟩)] [102, 46, 97]
      = some [109] ∧
    MimeSearcher.find_mimetype_from_filepath [([98], ⟨0, [109]⟩)] [102, 46, 97]
      = none := by
  decide

/-- Witness for the amended C10 at two entry lists differing only in weight
(5 vs 7). -/
theorem C10_weight_noninterference_witness :
    MimeSearcher.find_mimetype_from_filepath
        (buildMap ([([42, 46, 120], ⟨5, [109]⟩)] ++ [])) [102, 46, 120]
      = MimeSearcher.find_mimetype_from_filepath
        (buildMap ([([42, 46, 120], ⟨7, [109]⟩)] ++ [])) [102, 46, 120] :=
  C10_weight_noninterference [([42, 46, 120], ⟨5, [109]⟩)] [([42, 46, 120], ⟨7, [109]⟩)]
    [] [] (List.Forall₂.cons ⟨rfl, rfl⟩ List.Forall₂.nil) List.Forall₂.nil
    [102, 46, 120]


/-! ### Extension lookup (claim C6) and text-source parsing (claim C7) -/

/-- Claim C6: `find_mimetype_from_filepath` returns `none` when the path has
no final extension component; otherwise it looks up exactly the final
extension component (`a.tar.gz`, bytes `[97,46,116,97,114,46,103,122]`,
resolves on `gz` = `[103,122]`, not `tar.gz`) by byte-wise case-sensitive
equality in the glob map, returning the mapped MIME type when an entry
exists and `none` otherwise, with no fallback.  A non-UTF-8 extension (which
can never equal a key obtained from Rust strings) also answers `none`. -/
theorem C6_extension_lookup (m : GlobMap) (path : List Nat) :
    (pathExtension path = none →
      MimeSearcher.find_mimetype_from_filepath m path = none) ∧
    (∀ ext, pathExtension path = some ext → validUtf8 ext = true →
      MimeSearcher.find_mimetype_from_filepath m path
        = (mapLookup m ext).map GlobEntry.mime) ∧
    (∀ ext, pathExtension path = some ext → validUtf8 ext = false →
      MimeSearcher.find_mimetype_from_filepath m path = none) ∧
    pathExtension [97, 46, 116, 97, 114, 46, 103, 122] = some [103, 122] := by
  refine ⟨?_, ?_, ?_, by decide⟩
  · intro h
    simp [MimeSearcher.find_mimetype_from_filepath, Globber.lookup_filename, h]
  · intro ext h hu
    simp only [MimeSearcher.find_mimetype_from_filepath, Globber.lookup_filename, h]
    rw [if_pos hu]
    cases mapLookup m ext <;> simp
  · intro ext h hu
    simp only [MimeSearcher.find_mimetype_from_filepath, Globber.lookup_filename, h]
    rw [if_neg (by simp [hu])]

/-- Witness for C6: a path without extension answers `none`. -/
theorem C6_extension_lookup_witness :
    MimeSearcher.find_mimetype_from_filepath [] [102, 111, 111] = none :=
  (C6_extension_lookup [] [102, 111, 111]).1 (by decide)

/-- Counterexample to C7 as stated: the text `"\n"` consists of exactly one
empty line, which the claim says is ignored without error; the code instead
fails with the bad-line error. -/
theorem C7_counterexample_empty_line :
    get_globs2_data [10] = .error (.Globs2BadLine []) := by decide

/-- Claim C7 (amended): every `#`-prefixed line is skipped without entry or
error; an empty line is NOT ignored — it fails with the bad-line error,
because it splits into one part; and for every non-`#`-prefixed line,
parsing fails with the bad-line error exactly when splitting on the first
two colons does not yield three parts, and (when it does yield three) fails
with the not-a-number error exactly when the first part does not parse as an
unsigned 8-bit integer. -/
theorem C7_line_parsing (line : List Nat) :
    (line.head? = some 35 → processGlobs2Line line = .ok none) ∧
    (line = [] → processGlobs2Line line = .error (.Globs2BadLine [])) ∧
    (line.head? ≠ some 35 →
      ((processGlobs2Line line = .error (.Globs2BadLine line)) ↔
        (splitn3 58 line).length ≠ 3) ∧
      ((splitn3 58 line).length = 3 →
        ((processGlobs2Line line = .error .NotANumber) ↔
          parseU8 ((splitn3 58 line).getD 0 []) = none))) := by
  refine ⟨?_, ?_, ?_⟩
  · intro h
    simp [processGlobs2Line, h]
  · intro h
    subst h
    decide
  · intro h
    have hproc : processGlobs2Line line
        = if (splitn3 58 line).length = 3 then
            match parseU8 ((splitn3 58 line).getD 0 []) with
            | none => ERes.error Error.NotANumber
            | some w => ERes.ok (some ((splitn3 58 line).getD 2 [],
                { weight := w, mime := (splitn3 58 line).getD 1 [] }))
          else ERes.error (Error.Globs2BadLine line) := by
      unfold processGlobs2Line
      rw [if_neg h]
    constructor
    · constructor
      · intro hp h3
        rw [if_pos h3] at hproc
        rw [hproc] at hp
        cases hw : parseU8 ((splitn3 58 line).getD 0 []) with
        | none => rw [hw] at hp; simp at hp
        | some w => rw [hw] at hp; simp at hp
      · intro h3
        rw [if_neg h3] at hproc
        exact hproc
    · intro h3
      rw [if_pos h3] at hproc
      constructor
      · intro hp
        rw [hproc] at hp
        cases hw : parseU8 ((splitn3 58 line).getD 0 []) with
        | none => rfl
        | some w => rw [hw] at hp; simp at hp
      · intro hw
        rw [hproc, hw]

/-- Witness for the amended C7: the one-part line `"5"` fails with the
bad-line error. -/
theorem C7_line_parsing_witness :
    processGlobs2Line [53] = .error (.Globs2BadLine [53]) :=
  (((C7_line_parsing [53]).2.2 (by decide)).1).mpr (by decide)

end SharedMimeInfo
